import Mathlib

/-!
# Verification of `myshell.c` (CS431-Assn7)

A shallow embedding of the command interpreter in `src/myshell.c`.

Conventions of the embedding:

* C strings (NUL-terminated `char` buffers) are modelled as `List Char`;
  file bytes read by `cat` are likewise modelled as `List Char`.
* Filesystem paths are modelled as canonical (already normalised) names;
  the ambient filesystem is an abstract read-only structure `FileSys`
  saying which paths open as directories, how `readdir` enumerates them,
  what `open`/`read` yields for files, and what metadata `stat` returns.
  The OS error string produced by `strerror(errno)` is modelled by the
  abstract field `errReason`.
* Output is modelled as the ordered list of writes the process performs,
  each tagged with the file descriptor it goes to (`Fd.out` for stdout,
  `Fd.err` for stderr).
* The only mutable shell state is the process working directory
  (`ShellState.cwd`), exactly as in the C program.
-/

set_option autoImplicit false
set_option maxRecDepth 8192

/-- The C-locale `isspace` predicate used by `strip_trailing_whitespace`
(space, tab, newline, vertical tab, form feed, carriage return). -/
def isSpaceC (c : Char) : Bool :=
  c = ' ' || c = '\t' || c = '\n' || c = '\x0b' || c = '\x0c' || c = '\r'

/-- Keyword `cd`. -/
def cdKw : List Char := ['c', 'd']

/-- Keyword `exit`. -/
def exitKw : List Char := ['e', 'x', 'i', 't']

/-- Keyword `cat`. -/
def catKw : List Char := ['c', 'a', 't']

/-- Keyword `stat`. -/
def statKw : List Char := ['s', 't', 'a', 't']

/-- Keyword `mkdir`. -/
def mkdirKw : List Char := ['m', 'k', 'd', 'i', 'r']

/-- Keyword `rmdir`. -/
def rmdirKw : List Char := ['r', 'm', 'd', 'i', 'r']

/-- Keyword `rm`. -/
def rmKw : List Char := ['r', 'm']

/-- Keyword `ls`. -/
def lsKw : List Char := ['l', 's']

/-- Keyword `pwd`. -/
def pwdKw : List Char := ['p', 'w', 'd']

/-- The nine command keywords recognised by the shell, per the spec. -/
def keywords : List (List Char) :=
  [cdKw, exitKw, catKw, statKw, mkdirKw, rmdirKw, rmKw, lsKw, pwdKw]

/-- Strip an exact literal character sequence `kw` off the front of `s`,
returning the remainder; `none` when `s` does not start with `kw`.  This is
the literal-character matching step of `sscanf(s, "KW %s", ...)`: in `scanf`
a non-whitespace literal must match the next input character exactly. -/
def dropKw : List Char → List Char → Option (List Char)
  | [], s => some s
  | _ :: _, [] => none
  | k :: ks, c :: cs => if k = c then dropKw ks cs else none

/-- The semantics of `sscanf(s, "KW %s", filename) == 1` as used throughout
`myshell.c`: the literal keyword characters must match the start of `s`
exactly (not necessarily at a token boundary), the format-string blank then
skips any (possibly empty) run of whitespace, and `%s` reads a maximal
non-empty run of non-whitespace characters.  Returns the scanned `%s` token,
or `none` when the scan does not assign it (sscanf result `0` or `EOF`). -/
def scanKeywordArg (kw s : List Char) : Option (List Char) :=
  match dropKw kw s with
  | none => none
  | some r =>
      let r1 := r.dropWhile isSpaceC
      let tok := r1.takeWhile (fun c => !isSpaceC c)
      if tok = [] then none else some tok

/-- The command selected for a parsed input line. -/
inductive Dispatch where
  | cd (arg : List Char)
  | exitCmd
  | cat (arg : List Char)
  | statCmd (arg : List Char)
  | mkdir (arg : List Char)
  | rmdir (arg : List Char)
  | rm (arg : List Char)
  | ls (arg : List Char)
  | pwd
  | invalid
  deriving DecidableEq, Repr

/-- The dispatch logic of `myshell.c`: the `cd`/`exit` special cases of
`main` (lines 74–81) followed by the scan cascade of `execute_command`
(lines 208–243), applied to the line buffer after
`strip_trailing_whitespace`.  Branch order exactly as in the source:
`cd`-scan or exact `"cd"`, exact `"exit"`, then `cat`, `stat`, `mkdir`,
`rmdir`, `rm` scans, then `ls`-scan or exact `"ls"` (empty argument
defaulting to `"."`), then exact `"pwd"`, else invalid. -/
def dispatch (buffer : List Char) : Dispatch :=
  match scanKeywordArg cdKw buffer with
  | some a => .cd a
  | none =>
    if buffer = cdKw then .cd []
    else if buffer = exitKw then .exitCmd
    else match scanKeywordArg catKw buffer with
    | some a => .cat a
    | none => match scanKeywordArg statKw buffer with
      | some a => .statCmd a
      | none => match scanKeywordArg mkdirKw buffer with
        | some a => .mkdir a
        | none => match scanKeywordArg rmdirKw buffer with
          | some a => .rmdir a
          | none => match scanKeywordArg rmKw buffer with
            | some a => .rm a
            | none => match scanKeywordArg lsKw buffer with
              | some a => .ls a
              | none =>
                if buffer = lsKw then .ls ['.']
                else if buffer = pwdKw then .pwd
                else .invalid

/-- Output file descriptors: `out` is stdout (fd 1), `err` is stderr (fd 2). -/
inductive Fd where
  | out
  | err
  deriving DecidableEq, Repr

/-- One `write`/`fprintf` performed by the program: the target descriptor
and the characters written. -/
abbrev OutWrite := Fd × List Char

/-- Metadata returned by a successful `stat` call, as consumed by
`do_stat`: size, `ctime` rendering of mtime (which itself ends in a
newline), mode bits, hard-link count and inode number. -/
structure FileMeta where
  size : Nat
  mtime : List Char
  mode : Nat
  nlink : Nat
  ino : Nat

/-- One `readdir` entry as observed by `do_ls`: its name, and the result of
`stat` on that name relative to the listed directory — `some b` when `stat`
succeeds with `S_ISDIR` equal to `b`, `none` when `stat` fails. -/
structure DirEntry where
  name : List Char
  statRes : Option Bool
  deriving DecidableEq

/-- The ambient filesystem, abstract and read-only.  Paths are taken as
canonical names (resolution of a path that `chdir`/`opendir` accept yields
the path itself).  `errReason` stands for the `strerror(errno)` text of a
failed call. -/
structure FileSys where
  /-- paths on which `opendir`/`chdir` succeed -/
  isDir : List Char → Bool
  /-- the `readdir` enumeration of a directory, in OS order -/
  entries : List Char → List DirEntry
  /-- `open(p, O_RDONLY)` outcome: `some bytes` on success -/
  fileBytes : List Char → Option (List Char)
  /-- `stat` metadata for `do_stat` -/
  meta : List Char → Option FileMeta
  /-- whether `mkdir(p, 0755)` succeeds -/
  mkdirOk : List Char → Bool
  /-- whether `rmdir(p)` succeeds -/
  rmdirOk : List Char → Bool
  /-- whether `unlink(p)` succeeds -/
  unlinkOk : List Char → Bool
  /-- the home directory `getpwuid(getuid())->pw_dir` -/
  home : List Char
  /-- the `strerror(errno)` rendering for failed calls -/
  errReason : List Char

/-- The only persistent interpreter state: the process working directory. -/
structure ShellState where
  cwd : List Char
  deriving DecidableEq, Repr

/-- Result of running one command handler: the writes it performs (in
order) and the shell state afterwards. -/
abbrev HandlerResult := List OutWrite × ShellState

/-- Decimal rendering of a nonnegative `%i` argument. -/
def natText (n : Nat) : List Char := Nat.toDigits 10 n

/-- The `%-30s` conversion: left-justify, pad with spaces to width 30
(names longer than 30 characters are printed in full). -/
def padTo30 (s : List Char) : List Char :=
  s ++ List.replicate (30 - s.length) ' '

/-- `do_cd` (myshell.c lines 90–102): an empty argument is replaced by the
home directory; `chdir` then either changes the working directory or
reports `cd: <reason>` on stderr leaving the state unchanged. -/
def do_cd (fs : FileSys) (st : ShellState) (dirname : List Char) : HandlerResult :=
  let target := if dirname = [] then fs.home else dirname
  if fs.isDir target then ([], ⟨target⟩)
  else ([(Fd.err, "cd: ".toList ++ fs.errReason ++ ['\n'])], st)

/-- `do_pwd` (myshell.c lines 175–180): prints the current working
directory with `fprintf(stdout, "%s>", ...)` — note the trailing `>` and
the absence of a newline, copied from `display_prompt`. -/
def do_pwd (st : ShellState) : List OutWrite :=
  [(Fd.out, st.cwd ++ ['>'])]

/-- The entry loop of `do_ls` (myshell.c lines 119–132).  The `struct stat
info` local is threaded through as `info`: when `stat` fails the code
prints a diagnostic but still tags the entry using the stale contents of
`info` (there is no `else`), so the accumulator is updated only on a
successful `stat`. -/
def lsLines (fs : FileSys) : Bool → List DirEntry → List OutWrite
  | _, [] => []
  | info, e :: es =>
    let errW : List OutWrite :=
      match e.statRes with
      | none => [(Fd.err, "stat: ".toList ++ e.name ++ ": ".toList ++ fs.errReason ++ ['\n'])]
      | some _ => []
    let info' := match e.statRes with
      | none => info
      | some b => b
    let line : OutWrite :=
      if info' then (Fd.out, padTo30 e.name ++ '\t' :: "<dir>".toList ++ ['\n'])
      else (Fd.out, padTo30 e.name ++ ['\n'])
    errW ++ line :: lsLines fs info' es

/-- `do_ls` (myshell.c lines 106–134): on `opendir` failure prints a
stderr diagnostic; on success it calls `chdir(dirname)` — mutating the
working directory — and prints one line per `readdir` entry, `<dir>`-tagged
according to `stat`.  `info0` is the (uninitialised) initial content of the
`struct stat` local. -/
def do_ls (fs : FileSys) (info0 : Bool) (st : ShellState) (dirname : List Char) :
    HandlerResult :=
  if fs.isDir dirname then
    ((lsLines fs info0 (fs.entries dirname)), ⟨dirname⟩)
  else
    ([(Fd.err, "Could not open directory ".toList ++ dirname ++ ": ".toList
        ++ fs.errReason ++ ['\n'])], st)

/-- The read/write loop of `do_cat` (myshell.c lines 146–150), a do-while:
each iteration reads up to 2048 bytes into the buffer (leaving the tail of
the buffer as it was) and then writes the WHOLE 2048-byte buffer to stdout
with `write(1, buffer, sizeof(buffer))`, looping while the read count was
positive.  Returns the successive 2048-byte chunks written. -/
def catLoop (buf : List Char) (data : List Char) : List (List Char) :=
  if h : data = [] then [buf]
  else
    let rc := min 2048 data.length
    let buf' := data.take rc ++ buf.drop rc
    buf' :: catLoop buf' (data.drop 2048)
  termination_by data.length
  decreasing_by
    have hpos : 0 < data.length := List.length_pos.mpr h
    simp [List.length_drop]
    omega

/-- `do_cat` (myshell.c lines 138–154): on `open` failure the diagnostic
`Unable to open <path>: <reason>` is printed with `printf` — i.e. to
STDOUT, unlike every other handler's diagnostics; on success the read/write
loop runs with the function's 2048-byte stack buffer, whose uninitialised
initial content is `init`. -/
def do_cat (fs : FileSys) (init : List Char) (fname : List Char) : List OutWrite :=
  match fs.fileBytes fname with
  | none => [(Fd.out, "Unable to open ".toList ++ fname ++ ": ".toList
      ++ fs.errReason ++ ['\n'])]
  | some data => (catLoop init data).map (fun c => (Fd.out, c))

/-- `do_mkdir` (myshell.c lines 158–163). -/
def do_mkdir (fs : FileSys) (dirname : List Char) : List OutWrite :=
  if fs.mkdirOk dirname then []
  else [(Fd.err, "Error making directory ".toList ++ dirname ++ ": ".toList
    ++ fs.errReason ++ ['\n'])]

/-- `do_rmdir` (myshell.c lines 167–171). -/
def do_rmdir (fs : FileSys) (dirname : List Char) : List OutWrite :=
  if fs.rmdirOk dirname then []
  else [(Fd.err, "Error removing directory ".toList ++ dirname ++ ": ".toList
    ++ fs.errReason ++ ['\n'])]

/-- `do_rm` (myshell.c lines 184–189). -/
def do_rm (fs : FileSys) (fname : List Char) : List OutWrite :=
  if fs.unlinkOk fname then []
  else [(Fd.err, "Error unlinking file ".toList ++ fname ++ ": ".toList
    ++ fs.errReason ++ ['\n'])]

/-- `do_stat` (myshell.c lines 193–206). -/
def do_stat (fs : FileSys) (fname : List Char) : List OutWrite :=
  match fs.meta fname with
  | none => [(Fd.err, "Error getting stats for ".toList ++ fname ++ ": ".toList
      ++ fs.errReason ++ ['\n'])]
  | some m =>
      [(Fd.out, "File Name: ".toList ++ fname ++ ['\n']),
       (Fd.out, "Total Size: ".toList ++ natText m.size ++ ['\n']),
       (Fd.out, "Last Modified: ".toList ++ m.mtime),
       (Fd.out, "Protection: ".toList ++ natText m.mode ++ ['\n']),
       (Fd.out, "Number of hardlinks: ".toList ++ natText m.nlink ++ ['\n']),
       (Fd.out, "Inode: ".toList ++ natText m.ino ++ ['\n'])]

/-- The diagnostic printed by `execute_command` for an unrecognised
non-empty line (myshell.c line 240). -/
def invalidMsg (buffer : List Char) : List Char :=
  "myshell: ".toList ++ buffer ++ ": No such file or directory\n".toList

/-- Result of processing one (already stripped) input line: the writes
performed, the shell state afterwards, and whether the process called
`exit(0)`. -/
structure ExecResult where
  writes : List OutWrite
  st : ShellState
  exited : Bool
  deriving DecidableEq

/-- Processing of one stripped line by `main` + `execute_command`:
dispatch, run the selected handler (with `info0` the uninitialised `stat`
local of `do_ls` and `catInit` the uninitialised buffer of `do_cat`), or —
on no match — print the `myshell: ...` diagnostic when the line is
non-empty. -/
def execLine (fs : FileSys) (info0 : Bool) (catInit : List Char)
    (st : ShellState) (buffer : List Char) : ExecResult :=
  match dispatch buffer with
  | .cd a => let r := do_cd fs st a; ⟨r.1, r.2, false⟩
  | .exitCmd => ⟨[], st, true⟩
  | .cat a => ⟨do_cat fs catInit a, st, false⟩
  | .statCmd a => ⟨do_stat fs a, st, false⟩
  | .mkdir a => ⟨do_mkdir fs a, st, false⟩
  | .rmdir a => ⟨do_rmdir fs a, st, false⟩
  | .rm a => ⟨do_rm fs a, st, false⟩
  | .ls a => let r := do_ls fs info0 st a; ⟨r.1, r.2, false⟩
  | .pwd => ⟨do_pwd st, st, false⟩
  | .invalid =>
      ⟨if buffer = [] then [] else [(Fd.err, invalidMsg buffer)], st, false⟩

/-- Value semantics of `strip_trailing_whitespace` (myshell.c lines 48–53)
in the cases where the C loop stays in bounds: remove the maximal run of
trailing whitespace characters. -/
def stripTrailing (s : List Char) : List Char :=
  (s.reverse.dropWhile isSpaceC).reverse

/-- The guard probes of the `strip_trailing_whitespace` loop starting at
index `i`: the loop evaluates `isspace(string[i])` and, while true, zeroes
the cell and decrements `i`.  Each probed index is recorded; when the probe
index would fall to `-1` (the whole prefix up to `i` was whitespace) the
out-of-bounds probe at `-1` is recorded and the model stops, since what the
C code reads there is outside the buffer. -/
def stripProbesFrom (s : List Char) : Nat → List Int
  | 0 =>
    if h : 0 < s.length then
      if isSpaceC (s.get ⟨0, h⟩) then [(0 : Int), (-1 : Int)] else [(0 : Int)]
    else []
  | j + 1 =>
    if h : j + 1 < s.length then
      if isSpaceC (s.get ⟨j + 1, h⟩) then Int.ofNat (j + 1) :: stripProbesFrom s j
      else [Int.ofNat (j + 1)]
    else []

/-- All buffer indices probed by `strip_trailing_whitespace` on a line `s`
(as read by `fgets`, so `strnlen` is `s.length`): the loop starts at
`strnlen(s) - 1`, which is already `-1` when the line is empty. -/
def stripProbes (s : List Char) : List Int :=
  match s.length with
  | 0 => [(-1 : Int)]
  | n + 1 => stripProbesFrom s n

/-- One whole-interpreter state for the read–dispatch loop of `main`
(myshell.c lines 64–86): the lines still unread on standard input (empty
when `fgets` will fail from now on), the shell state, and the exit code
when the process has terminated. -/
structure LoopState where
  pending : List (List Char)
  st : ShellState
  exited : Option Nat
  deriving DecidableEq

/-- One iteration of `main`'s `while (1)` loop: print the prompt, attempt
`fgets`.  When input is exhausted `fgets` returns `NULL`, the body is
skipped, and the loop simply comes around again — nothing breaks out of
`while (1)`, so the state is unchanged.  Otherwise the line is stripped and
processed; `exit` sets the exit code to `0` (the only `exit` call is
`exit(0)`). -/
def mainStep (fs : FileSys) (info0 : Bool) (catInit : List Char) :
    LoopState → LoopState
  | s =>
    match s.exited with
    | some _ => s
    | none =>
      match s.pending with
      | [] => s
      | line :: rest =>
        let r := execLine fs info0 catInit s.st (stripTrailing line)
        ⟨rest, r.st, if r.exited then some 0 else none⟩

/-- The first whitespace-delimited token of a line (empty when the line is
all whitespace). -/
def firstTok (s : List Char) : List Char :=
  (s.dropWhile isSpaceC).takeWhile (fun c => !isSpaceC c)

/-- What remains of a line after its first whitespace-delimited token. -/
def restAfterFirst (s : List Char) : List Char :=
  (s.dropWhile isSpaceC).dropWhile (fun c => !isSpaceC c)

/-! ### Helper lemmas about the scan cascade -/

theorem dropKw_some {kw s r : List Char} (h : dropKw kw s = some r) : s = kw ++ r := by
  induction kw generalizing s with
  | nil => simpa [dropKw] using h
  | cons k ks ih =>
    cases s with
    | nil => simp [dropKw] at h
    | cons c cs =>
      by_cases hk : k = c
      · subst hk
        simp only [dropKw, if_pos rfl] at h
        simpa using ih h
      · simp [dropKw, hk] at h

theorem scan_some_app {kw s t : List Char} (h : scanKeywordArg kw s = some t) :
    ∃ r, s = kw ++ r := by
  unfold scanKeywordArg at h
  cases hd : dropKw kw s with
  | none => rw [hd] at h; exact absurd h (by simp)
  | some r => exact ⟨r, dropKw_some hd⟩

theorem scan_none_head {k c : Char} (ks cs : List Char) (h : k ≠ c) :
    scanKeywordArg (k :: ks) (c :: cs) = none := by
  simp [scanKeywordArg, dropKw, h]

theorem dispatch_eq_invalid_of {s : List Char}
    (hcd : scanKeywordArg cdKw s = none)
    (hcat : scanKeywordArg catKw s = none)
    (hstat : scanKeywordArg statKw s = none)
    (hmk : scanKeywordArg mkdirKw s = none)
    (hrmd : scanKeywordArg rmdirKw s = none)
    (hrm : scanKeywordArg rmKw s = none)
    (hls : scanKeywordArg lsKw s = none)
    (h1 : s ≠ cdKw) (h2 : s ≠ exitKw) (h3 : s ≠ lsKw) (h4 : s ≠ pwdKw) :
    dispatch s = .invalid := by
  unfold dispatch
  rw [hcd, hcat, hstat, hmk, hrmd, hrm, hls]
  simp [h1, h2, h3, h4]

theorem dispatch_invalid_of_no_kw_start {s : List Char}
    (H : ∀ kw ∈ keywords, s.take kw.length ≠ kw) : dispatch s = .invalid := by
  have hscan : ∀ kw ∈ keywords, scanKeywordArg kw s = none := by
    intro kw hkw
    cases hc : scanKeywordArg kw s with
    | none => rfl
    | some t =>
      obtain ⟨r, hr⟩ := scan_some_app hc
      exact absurd (by rw [hr]; exact List.take_left kw r) (H kw hkw)
  have hmem : ∀ kw ∈ keywords, s ≠ kw := by
    intro kw hkw he
    exact H kw hkw (by rw [he]; exact List.take_length kw)
  refine dispatch_eq_invalid_of
    (hscan cdKw (by simp [keywords])) (hscan catKw (by simp [keywords]))
    (hscan statKw (by simp [keywords])) (hscan mkdirKw (by simp [keywords]))
    (hscan rmdirKw (by simp [keywords])) (hscan rmKw (by simp [keywords]))
    (hscan lsKw (by simp [keywords]))
    (hmem cdKw (by simp [keywords])) (hmem exitKw (by simp [keywords]))
    (hmem lsKw (by simp [keywords])) (hmem pwdKw (by simp [keywords]))

theorem exec_invalid {fs : FileSys} {info0 : Bool} {catInit : List Char}
    {st : ShellState} {b : List Char}
    (hd : dispatch b = .invalid) (hne : b ≠ []) :
    execLine fs info0 catInit st b = ⟨[(Fd.err, invalidMsg b)], st, false⟩ := by
  unfold execLine
  rw [hd]
  simp [hne]

theorem dispatch_exit_app {rest : List Char} (h : rest ≠ []) :
    dispatch (exitKw ++ rest) = .invalid := by
  have hlen : 0 < rest.length := List.length_pos.mpr h
  refine dispatch_eq_invalid_of
    (scan_none_head (c := 'e') _ _ (by decide)) (scan_none_head (c := 'e') _ _ (by decide))
    (scan_none_head (c := 'e') _ _ (by decide)) (scan_none_head (c := 'e') _ _ (by decide))
    (scan_none_head (c := 'e') _ _ (by decide)) (scan_none_head (c := 'e') _ _ (by decide))
    (scan_none_head (c := 'e') _ _ (by decide)) ?_ ?_ ?_ ?_ <;>
  · intro he
    have hl := congrArg List.length he
    simp only [exitKw, cdKw, lsKw, pwdKw, List.length_append, List.length_cons,
      List.length_nil] at hl
    omega

/-! ### Concrete sample filesystem for witnesses and counterexamples -/

/-- A small concrete filesystem: `/tmp` and `/d` are directories, `/d`
enumerates a regular file `a` and a directory `b`, and `/f` is a one-byte
file containing `x`. -/
def sampleFS : FileSys where
  isDir := fun p => p == "/tmp".toList || p == "/d".toList
  entries := fun p =>
    if p == "/d".toList then [⟨"a".toList, some false⟩, ⟨"b".toList, some true⟩]
    else []
  fileBytes := fun p => if p == "/f".toList then some ['x'] else none
  meta := fun _ => none
  mkdirOk := fun _ => false
  rmdirOk := fun _ => false
  unlinkOk := fun _ => false
  home := "/home/user".toList
  errReason := "No such file or directory".toList

/-- The bytes a list of writes sends to standard output, in order. -/
def stdoutText (ws : List OutWrite) : List Char :=
  ((ws.filter (fun w => w.1 == Fd.out)).map Prod.snd).flatten

/-- Standard output of the two-command sequence `cd d` then `pwd`. -/
def cdThenPwdOut (fs : FileSys) (st : ShellState) (d : List Char) : List Char :=
  stdoutText ((do_cd fs st d).1 ++ do_pwd (do_cd fs st d).2)

/-! ### Unfolding equations for the `cat` read/write loop -/

theorem catLoop_nil (buf : List Char) : catLoop buf [] = [buf] := by
  unfold catLoop
  simp

theorem catLoop_cons {data : List Char} (buf : List Char) (h : data ≠ []) :
    catLoop buf data =
      (data.take (min 2048 data.length) ++ buf.drop (min 2048 data.length)) ::
        catLoop (data.take (min 2048 data.length) ++ buf.drop (min 2048 data.length))
          (data.drop 2048) := by
  conv_lhs => unfold catLoop
  simp [h]

/-! ### Claims -/

/-- C1: the spec claims `cat F` writes exactly the file's bytes to standard
output with no extra bytes.  The code contradicts this (a code bug flagged
by the spec's own design notes): for the one-byte file `/f` containing `x`,
the do-while loop of `do_cat` performs two iterations and each writes the
whole 2048-byte buffer, so 4096 bytes reach stdout instead of the single
file byte. -/
theorem c1_cat_extra_bytes :
    sampleFS.fileBytes "/f".toList = some ['x'] ∧
    (stdoutText (do_cat sampleFS (List.replicate 2048 ' ') "/f".toList)).length = 4096 ∧
    stdoutText (do_cat sampleFS (List.replicate 2048 ' ') "/f".toList) ≠ ['x'] := by
  have hbytes : sampleFS.fileBytes "/f".toList = some ['x'] := by decide
  have hchunk : catLoop (List.replicate 2048 ' ') ['x'] =
      ['x' :: (List.replicate 2048 ' ').drop 1,
       'x' :: (List.replicate 2048 ' ').drop 1] := by
    rw [catLoop_cons _ (by simp)]
    norm_num
    rw [catLoop_nil]
  have hout : stdoutText (do_cat sampleFS (List.replicate 2048 ' ') "/f".toList) =
      ('x' :: (List.replicate 2048 ' ').drop 1) ++
        ('x' :: (List.replicate 2048 ' ').drop 1) := by
    unfold do_cat
    rw [hbytes]
    dsimp only
    rw [hchunk]
    simp only [stdoutText, List.filter, List.map, List.flatten]
    simp
  have hlen : (stdoutText (do_cat sampleFS (List.replicate 2048 ' ') "/f".toList)).length
      = 4096 := by
    rw [hout]
    simp only [List.length_append, List.length_cons, List.length_drop,
      List.length_replicate]
  refine ⟨hbytes, hlen, fun he => ?_⟩
  have hq := congrArg List.length he
  rw [hlen] at hq
  simp at hq

/-- C2: the spec claims that when `fgets` fails (end of input) the loop
terminates and the process exits with code 0.  The code contradicts this (a
code bug: the `return 0` after `while (1)` is unreachable): with no input
left, every iteration of `main`'s loop merely reprints the prompt and comes
around, so the interpreter never terminates — after any number of steps the
exit code is still unset. -/
theorem c2_eof_never_exits (fs : FileSys) (info0 : Bool) (catInit : List Char)
    (st : ShellState) (n : Nat) :
    ((mainStep fs info0 catInit)^[n] ⟨[], st, none⟩).exited = none := by
  have hfix : mainStep fs info0 catInit ⟨[], st, none⟩ = ⟨[], st, none⟩ := rfl
  rw [Function.iterate_fixed hfix]

/-- C3 counterexample: the claim that a line is dispatched to a built-in
only when its FIRST WHITESPACE-DELIMITED TOKEN exactly matches one of the
nine keywords is false: the line `catfoo` (first token `catfoo`, matching
no keyword) is dispatched to the `cat` built-in with argument `foo`,
because the scanf literal `cat` in `"cat %s"` need not end at a token
boundary. -/
theorem c3_first_token_cex :
    ¬ (∀ b : List Char, dispatch b ≠ Dispatch.invalid → firstTok b ∈ keywords) := by
  intro H
  exact absurd (H "catfoo".toList (by decide)) (by decide)

/-- C3 amended: a line is dispatched to a built-in operation only when one
of the nine keywords is a character PREFIX of the line (the keyword need
not be the whole first token). -/
theorem c3_dispatched_starts_with_keyword (b : List Char)
    (h : dispatch b ≠ Dispatch.invalid) : ∃ kw ∈ keywords, ∃ r, b = kw ++ r := by
  by_contra hc
  push_neg at hc
  apply h
  apply dispatch_invalid_of_no_kw_start
  intro kw hkw htake
  have hdec : b = kw ++ b.drop kw.length := by
    conv_lhs => rw [← List.take_append_drop kw.length b]
    rw [htake]
  exact hc kw hkw (b.drop kw.length) hdec

/-- C3 witness: the dispatched line `catfoo` indeed begins with a
keyword. -/
theorem c3_dispatched_starts_with_keyword_witness :
    ∃ kw ∈ keywords, ∃ r, "catfoo".toList = kw ++ r :=
  c3_dispatched_starts_with_keyword "catfoo".toList (by decide)

/-- C4 counterexample: the claim that `cd D` followed by `pwd` prints
exactly `D` and nothing else is false: `do_pwd` prints the working
directory with `fprintf(stdout, "%s>", ...)`, so after `cd /tmp` the `pwd`
output is `/tmp>` — with a trailing prompt delimiter — not `/tmp`. -/
theorem c4_pwd_cex :
    ¬ (∀ (fs : FileSys) (st : ShellState) (d : List Char),
        d ≠ [] → fs.isDir d = true → cdThenPwdOut fs st d = d) := by
  intro H
  exact absurd (H sampleFS ⟨"/".toList⟩ "/tmp".toList (by decide) (by decide))
    (by decide)

/-- C4 amended: for every valid directory path `D`, `cd D` followed by
`pwd` prints exactly `D` followed by the prompt delimiter `>` (and no
newline) on standard output. -/
theorem c4_cd_pwd_prints_dir (fs : FileSys) (st : ShellState) (d : List Char)
    (hne : d ≠ []) (h : fs.isDir d = true) :
    cdThenPwdOut fs st d = d ++ ['>'] := by
  unfold cdThenPwdOut do_cd do_pwd
  simp [hne, h, stdoutText]

/-- C4 witness: after `cd /tmp`, `pwd` prints `/tmp>`. -/
theorem c4_cd_pwd_prints_dir_witness :
    cdThenPwdOut sampleFS ⟨"/".toList⟩ "/tmp".toList = "/tmp".toList ++ ['>'] :=
  c4_cd_pwd_prints_dir sampleFS ⟨"/".toList⟩ "/tmp".toList (by decide) (by decide)

/-- C5: for a directory whose `readdir` enumeration is a regular file `a`
and a directory `b` (in either order), `ls` prints exactly two stdout
lines: the one for `b` tagged `<dir>`, the one for `a` untagged, in
enumeration order. -/
theorem c5_ls_file_and_dir (fs : FileSys) (info0 : Bool) (st : ShellState)
    (d a b : List Char) (hd : fs.isDir d = true) :
    (fs.entries d = [⟨a, some false⟩, ⟨b, some true⟩] →
      (do_ls fs info0 st d).1 =
        [(Fd.out, padTo30 a ++ ['\n']),
         (Fd.out, padTo30 b ++ '\t' :: "<dir>".toList ++ ['\n'])]) ∧
    (fs.entries d = [⟨b, some true⟩, ⟨a, some false⟩] →
      (do_ls fs info0 st d).1 =
        [(Fd.out, padTo30 b ++ '\t' :: "<dir>".toList ++ ['\n']),
         (Fd.out, padTo30 a ++ ['\n'])]) := by
  constructor <;> intro he <;> simp [do_ls, hd, he, lsLines]

/-- C5 witness: listing the sample directory `/d` containing file `a` and
directory `b` prints the two expected lines. -/
theorem c5_ls_file_and_dir_witness :
    (do_ls sampleFS false ⟨"/".toList⟩ "/d".toList).1 =
      [(Fd.out, padTo30 "a".toList ++ ['\n']),
       (Fd.out, padTo30 "b".toList ++ '\t' :: "<dir>".toList ++ ['\n'])] :=
  (c5_ls_file_and_dir sampleFS false ⟨"/".toList⟩ "/d".toList "a".toList "b".toList
    (by decide)).1 (by decide)

/-- C6 counterexample: the claim that EVERY non-empty line whose first
token matches no keyword gets the `myshell: ...` diagnostic with state
unchanged is false: the line `cd/tmp` (first token `cd/tmp`, not a
keyword) is dispatched to `cd` with argument `/tmp`, printing nothing and
changing the working directory. -/
theorem c6_unknown_line_cex :
    ¬ (∀ (fs : FileSys) (info0 : Bool) (catInit : List Char) (st : ShellState)
        (b : List Char), b ≠ [] → firstTok b ∉ keywords →
        execLine fs info0 catInit st b = ⟨[(Fd.err, invalidMsg b)], st, false⟩) := by
  intro H
  exact absurd
    (H sampleFS false [] ⟨"/".toList⟩ "cd/tmp".toList (by decide) (by decide))
    (by decide)

/-- C6 amended: every non-empty line that does not BEGIN with one of the
nine keywords produces exactly the diagnostic
`myshell: <line>: No such file or directory` on the error stream, leaves
the state unchanged, and does not terminate the process. -/
theorem c6_unknown_line_diagnostic (fs : FileSys) (info0 : Bool)
    (catInit : List Char) (st : ShellState) (b : List Char) (hne : b ≠ [])
    (H : ∀ kw ∈ keywords, b.take kw.length ≠ kw) :
    execLine fs info0 catInit st b = ⟨[(Fd.err, invalidMsg b)], st, false⟩ :=
  exec_invalid (dispatch_invalid_of_no_kw_start H) hne

/-- C6 witness: the line `foobar` produces exactly the diagnostic and
leaves the state unchanged. -/
theorem c6_unknown_line_diagnostic_witness :
    execLine sampleFS false [] ⟨"/".toList⟩ "foobar".toList =
      ⟨[(Fd.err, invalidMsg "foobar".toList)], ⟨"/".toList⟩, false⟩ :=
  c6_unknown_line_diagnostic sampleFS false [] ⟨"/".toList⟩ "foobar".toList
    (by decide) (by decide)

/-- C7: the spec claims every failure diagnostic goes to standard error;
the code contradicts this (a code bug — every other handler uses
`fprintf(stderr, ...)` but `do_cat` uses `printf`): when `cat`'s open
fails, the `Unable to open <path>: <reason>` message is the single write
performed, and it goes to `Fd.out` (standard output), not `Fd.err`. -/
theorem c7_cat_open_error_goes_to_stdout :
    sampleFS.fileBytes "/nofile".toList = none ∧
    do_cat sampleFS [] "/nofile".toList =
      [(Fd.out, "Unable to open ".toList ++ "/nofile".toList ++ ": ".toList
          ++ sampleFS.errReason ++ ['\n'])] ∧
    Fd.out ≠ Fd.err :=
  ⟨by decide, by decide, by decide⟩

/-- C8: for every directory that can be opened, `ls` changes the process
working directory to the listed directory (the `chdir(dirname)` on line
117 of `myshell.c`), so after `ls D` the working directory is `D`. -/
theorem c8_ls_changes_cwd (fs : FileSys) (info0 : Bool) (st : ShellState)
    (d : List Char) (h : fs.isDir d = true) :
    ((do_ls fs info0 st d).2).cwd = d := by
  simp [do_ls, h]

/-- C8 witness: after `ls /d` from `/`, the working directory is `/d`. -/
theorem c8_ls_changes_cwd_witness :
    ((do_ls sampleFS false ⟨"/".toList⟩ "/d".toList).2).cwd = "/d".toList :=
  c8_ls_changes_cwd sampleFS false ⟨"/".toList⟩ "/d".toList (by decide)

/-- C9: a line whose first token is `exit` but which has further text
(a second token) does not terminate the process: it is reported with the
`myshell: <line>: No such file or directory` diagnostic, the state is
unchanged, and the loop continues; only the exact line `exit` matches the
`strncmp(buffer, "exit", ...)` test. -/
theorem c9_exit_with_extra_text (fs : FileSys) (info0 : Bool)
    (catInit : List Char) (st : ShellState) (b : List Char)
    (h1 : firstTok b = exitKw) (h2 : firstTok (restAfterFirst b) ≠ []) :
    execLine fs info0 catInit st b = ⟨[(Fd.err, invalidMsg b)], st, false⟩ := by
  have hne : b ≠ [] := by
    intro hb
    rw [hb] at h1
    exact absurd h1 (by decide)
  refine exec_invalid ?_ hne
  cases b with
  | nil => exact absurd h1 (by decide)
  | cons c l =>
    by_cases hsp : isSpaceC c = true
    · refine dispatch_invalid_of_no_kw_start ?_
      intro kw hkw htake
      have hc : ∃ k ks, kw = k :: ks ∧ isSpaceC k = false := by
        simp only [keywords, cdKw, exitKw, catKw, statKw, mkdirKw, rmdirKw, rmKw,
          lsKw, pwdKw, List.mem_cons, List.mem_singleton, List.not_mem_nil,
          or_false] at hkw
        rcases hkw with h | h | h | h | h | h | h | h | h <;> subst h <;>
          exact ⟨_, _, rfl, by decide⟩
      obtain ⟨k, ks, hkeq, hknsp⟩ := hc
      rw [hkeq] at htake
      simp only [List.length_cons, List.take_succ_cons, List.cons.injEq] at htake
      rw [htake.1] at hsp
      rw [hknsp] at hsp
      exact Bool.false_ne_true hsp
    · have hdw : (c :: l).dropWhile isSpaceC = c :: l := by
        simp [List.dropWhile_cons, hsp]
      have hft : firstTok (c :: l) = (c :: l).takeWhile (fun x => !isSpaceC x) := by
        unfold firstTok
        rw [hdw]
      have hra : restAfterFirst (c :: l) =
          (c :: l).dropWhile (fun x => !isSpaceC x) := by
        unfold restAfterFirst
        rw [hdw]
      have hrne : (c :: l).dropWhile (fun x => !isSpaceC x) ≠ [] := by
        intro h0
        apply h2
        rw [hra, h0]
        decide
      have hb : c :: l = exitKw ++ (c :: l).dropWhile (fun x => !isSpaceC x) := by
        conv_lhs => rw [← List.takeWhile_append_dropWhile
          (p := fun x => !isSpaceC x) (l := c :: l)]
        rw [← hft, h1]
      rw [hb]
      exact dispatch_exit_app hrne

/-- C9 witness: the line `exit now` yields the diagnostic and does not
terminate the process. -/
theorem c9_exit_with_extra_text_witness :
    execLine sampleFS false [] ⟨"/".toList⟩ "exit now".toList =
      ⟨[(Fd.err, invalidMsg "exit now".toList)], ⟨"/".toList⟩, false⟩ :=
  c9_exit_with_extra_text sampleFS false [] ⟨"/".toList⟩ "exit now".toList
    (by decide) (by decide)

/-- C10: the spec claims the trailing-whitespace stripper never accesses an
index below 0.  The code contradicts this (a code bug): on the empty input
line (the buffer `"\n"` produced by `fgets`), the loop probes index 0,
finds whitespace, decrements `i` to `-1` and evaluates
`isspace(string[-1])` — an out-of-bounds read. -/
theorem c10_strip_reads_below_zero :
    stripProbes ['\n'] = [(0 : Int), (-1 : Int)] ∧
    ¬ (∀ i ∈ stripProbes ['\n'], (0 : Int) ≤ i) :=
  ⟨by decide, by decide⟩

/-- Sanity record of the dispatcher on characteristic lines: ordinary
commands, the scanf non-token-boundary quirk (`catfoo`, `cd/tmp`), the
exact-match special cases, the `rmdir`-with-no-argument fallthrough to
`rm dir`, and unrecognised input. -/
theorem dispatch_samples :
    dispatch "cat f.txt".toList = .cat "f.txt".toList ∧
    dispatch "catfoo".toList = .cat "foo".toList ∧
    dispatch "cd".toList = .cd [] ∧
    dispatch "cd/tmp".toList = .cd "/tmp".toList ∧
    dispatch "exit".toList = .exitCmd ∧
    dispatch "exit now".toList = .invalid ∧
    dispatch "ls".toList = .ls ['.'] ∧
    dispatch "rmdir".toList = .rm "dir".toList ∧
    dispatch "pwd".toList = .pwd ∧
    dispatch [] = .invalid ∧
    dispatch "foobar".toList = .invalid := by
  decide
